import Mathlib

/-!
Shallow embedding of the notification-bot core (reference store, event
classifier, install-tracking middleware, notification directory) and
proofs of the specification claims about it.

Conventions of the embedding:
* TypeScript values that may be `undefined` become `Option`.
* A JavaScript template literal `${'$'}{x}` renders `undefined` as the string
  "undefined"; the helper `jsTemplate` models that.
* Asynchronous store mutations performed by the middleware are recorded as a
  trace of `StoreOp` events; `StoreOp.next` records the call to the next
  pipeline stage.
* Platform calls (the paged-member probe) are abstracted by a `ProbeResult`
  oracle passed in as a parameter.
* A JavaScript runtime crash (dereferencing `undefined`) and `throw` are
  modelled by `Except String`.
-/

/-- Model of the `conversation` object inside an activity / conversation
reference.  Only the fields the core reads are carried. -/
structure ConversationAccount where
  id : Option String
  tenantId : Option String
  conversationType : Option String
  name : Option String
deriving DecidableEq, Repr

/-- Model of `channelData.team`. -/
structure TeamInfo where
  id : Option String
deriving DecidableEq, Repr

/-- Model of `channelData.channel`. -/
structure ChannelDataChannel where
  id : Option String
deriving DecidableEq, Repr

/-- Model of `activity.channelData`. -/
structure ChannelData where
  eventType : Option String
  team : Option TeamInfo
  channel : Option ChannelDataChannel
deriving DecidableEq, Repr

/-- Model of an inbound `Activity`: the fields read by the classifier and the
middleware. -/
structure Activity where
  type : String
  action : Option String
  channelData : Option ChannelData
  conversation : Option ConversationAccount
  serviceUrl : Option String
deriving DecidableEq, Repr

/-- Model of a `Partial<ConversationReference>`; `serviceUrl` stands for the
payload fields the core treats as opaque. -/
structure ConversationReference where
  conversation : Option ConversationAccount
  serviceUrl : Option String
deriving DecidableEq, Repr

/-- Translation of `activity.getConversationReference()`: projects the activity onto a
conversation reference. -/
def getConversationReference (a : Activity) : ConversationReference :=
  { conversation := a.conversation, serviceUrl := a.serviceUrl }

/-- JavaScript template-literal rendering of a possibly-absent string:
`undefined` stringifies to "undefined". -/
def jsTemplate : Option String → String
  | none => "undefined"
  | some s => s

/-- Translation of `getKey(reference)` from src/unnamed/part_001:
a template literal over `reference.conversation?.tenantId` and
`reference.conversation?.id`. -/
def getKey (reference : ConversationReference) : String :=
  "_" ++ jsTemplate (reference.conversation.bind (·.tenantId)) ++ "_" ++
    jsTemplate (reference.conversation.bind (·.id))

/-- The internal `ActivityType` enum of the middleware. -/
inductive ActivityType where
  | CurrentBotInstalled
  | CurrentBotMessaged
  | CurrentBotUninstalled
  | TeamDeleted
  | TeamRestored
  | Unknown
deriving DecidableEq, Repr

/-- Translation of `NotificationMiddleware.classifyActivity` from src/unnamed/part_001,
translated clause by clause. -/
def classifyActivity (a : Activity) : ActivityType :=
  if a.type = "installationUpdate" then
    let action := a.action.map String.toLower
    if action = some "add" ∨ action = some "add-upgrade" then
      ActivityType.CurrentBotInstalled
    else
      ActivityType.CurrentBotUninstalled
  else if a.type = "conversationUpdate" then
    let eventType := a.channelData.bind (·.eventType)
    if eventType = some "teamDeleted" then ActivityType.TeamDeleted
    else if eventType = some "teamRestored" then ActivityType.TeamRestored
    else ActivityType.Unknown
  else if a.type = "message" then ActivityType.CurrentBotMessaged
  else ActivityType.Unknown

/-- The store operations the middleware may perform during a turn, plus the
`next` marker recording the invocation of the next pipeline stage. -/
inductive StoreOp where
  | write (key : String) (reference : ConversationReference)
  | del (keys : List String)
  | next
deriving DecidableEq, Repr

/-- The deep clone `JSON.parse(JSON.stringify(reference))` followed by
`teamReference.conversation.id = teamId`.  In the only call site the
conversation object is present (the branch requires
`conversationType === "channel"`), so mapping over the option is faithful. -/
def setConversationId (r : ConversationReference) (cid : String) : ConversationReference :=
  { r with conversation := r.conversation.map (fun c => { c with id := some cid }) }

/-- Translation of `NotificationMiddleware.tryAddMessagedReference` from src/unnamed/part_001,
returning the trace of store writes it performs. -/
def tryAddMessagedReference (a : Activity) : List StoreOp :=
  let reference := getConversationReference a
  let conversationType := reference.conversation.bind (·.conversationType)
  if conversationType = some "personal" ∨ conversationType = some "groupChat" then
    [StoreOp.write (getKey reference) reference]
  else if conversationType = some "channel" then
    let teamId := (a.channelData.bind (·.team)).bind (·.id)
    let channelId := (a.channelData.bind (·.channel)).bind (·.id)
    match teamId with
    | some tid =>
      if channelId = none ∨ channelId = some tid then
        let teamReference := setConversationId reference tid
        [StoreOp.write (getKey teamReference) teamReference]
      else []
    | none => []
  else []

/-- The store-mutation part of `NotificationMiddleware.onTurn`: the `switch`
over the classified activity. -/
def onTurnStoreOps (a : Activity) : List StoreOp :=
  match classifyActivity a with
  | ActivityType.CurrentBotInstalled | ActivityType.TeamRestored =>
    [StoreOp.write (getKey (getConversationReference a)) (getConversationReference a)]
  | ActivityType.CurrentBotMessaged => tryAddMessagedReference a
  | ActivityType.CurrentBotUninstalled | ActivityType.TeamDeleted =>
    [StoreOp.del [getKey (getConversationReference a)]]
  | ActivityType.Unknown => []

/-- Translation of `NotificationMiddleware.onTurn`: the store handling followed by
`await next()` (every `switch` branch falls through to `next`). -/
def onTurn (a : Activity) : List StoreOp :=
  onTurnStoreOps a ++ [StoreOp.next]

/-- The write operations contained in a middleware trace. -/
def writeOps (ops : List StoreOp) : List StoreOp :=
  ops.filter fun op =>
    match op with
    | StoreOp.write _ _ => true
    | _ => false

/-- The persisted mapping object of the local store, as an ordered key/value
list (JSON objects preserve insertion order and have unique keys). -/
abbrev StoreData := List (String × ConversationReference)

/-- The backing file of `LocalConversationReferenceStore`: `none` when the
store file does not exist. -/
abbrev StoreFile := Option StoreData

/-- The entries of the backing file (empty when the file is absent). -/
def fileEntries (file : StoreFile) : StoreData :=
  file.getD []

/-- JavaScript property lookup `data[key]` on the parsed mapping object. -/
def assocGet (data : StoreData) (k : String) : Option ConversationReference :=
  (data.find? (fun e => e.1 == k)).map (·.2)

/-- One step of `Object.assign(data, changes)`: overwrite the value in place
when the key is present, otherwise append the new entry. -/
def assocSet (data : StoreData) (k : String) (v : ConversationReference) : StoreData :=
  if data.any (fun e => e.1 == k) then
    data.map (fun e => if e.1 == k then (k, v) else e)
  else
    data ++ [(k, v)]

/-- A page of data (`PagedData<T>` from src/unnamed/part_000), instantiated at
conversation references as the local store returns it. -/
structure PagedData where
  data : List ConversationReference
  continuationToken : String
deriving DecidableEq, Repr

namespace LocalConversationReferenceStore

/-- Translation of `LocalConversationReferenceStore.write`: create the file from `changes`
when it does not exist, otherwise `Object.assign` the changes over the
current content and write it back. -/
def write (file : StoreFile) (changes : StoreData) : StoreFile :=
  match file with
  | none => some changes
  | some data => some (changes.foldl (fun d kv => assocSet d kv.1 kv.2) data)

/-- Translation of `LocalConversationReferenceStore.read`: empty result when the file does
not exist; otherwise the subset of requested keys that are present. -/
def read (file : StoreFile) (keys : List String) : StoreData :=
  match file with
  | none => []
  | some data => keys.filterMap (fun k => (assocGet data k).map (fun v => (k, v)))

/-- Translation of `LocalConversationReferenceStore.delete`: no-op when the file does not
exist; otherwise remove each present key and write the data back. -/
def delete (file : StoreFile) (keys : List String) : StoreFile :=
  match file with
  | none => none
  | some data => some (data.filter (fun e => !(keys.contains e.1)))

/-- Translation of `LocalConversationReferenceStore.list`: a single page holding every
stored value, with an empty continuation token; an empty page when the file
does not exist.  `pageSize` and `continuationToken` are not read. -/
def list (file : StoreFile) (pageSize : Option Nat) (continuationToken : Option String) :
    PagedData :=
  match file with
  | none => { data := [], continuationToken := "" }
  | some data => { data := data.map (·.2), continuationToken := "" }

end LocalConversationReferenceStore

/-- Outcome of the liveness probe `TeamsInfo.getPagedMembers(context, 1)`
inside `validateInstallation`: success, or a thrown error carrying a
platform error `code`. -/
inductive ProbeResult where
  | success
  | failure (code : String)
deriving DecidableEq, Repr

/-- Translation of `NotificationBot.validateInstallation` from src/unnamed/part_002:
`isValid` starts true and is set to false exactly when the probe throws with
code "BotNotInConversationRoster"; every other error is swallowed. -/
def validateInstallation (probe : ProbeResult) : Bool :=
  match probe with
  | ProbeResult.success => true
  | ProbeResult.failure code =>
    if code = "BotNotInConversationRoster" then false else true

/-- Model of `TeamsBotInstallation`: the bound reference and the `type` field
the constructor derives from it (adapter and bot app id are opaque). -/
structure TeamsBotInstallation where
  conversationReference : ConversationReference
  type : Option String
deriving DecidableEq, Repr

/-- The `TeamsBotInstallation` constructor: it reads
`conversationReference.conversation.conversationType` with no guard, so a
reference whose `conversation` is absent makes it throw a `TypeError`. -/
def TeamsBotInstallation.make (r : ConversationReference) :
    Except String TeamsBotInstallation :=
  match r.conversation with
  | none => Except.error "TypeError"
  | some c => Except.ok { conversationReference := r, type := c.conversationType }

/-- Translation of `NotificationBot.buildTeamsBotInstallation`: throws when the reference is
null/undefined, otherwise invokes the `TeamsBotInstallation` constructor. -/
def buildTeamsBotInstallation (conversationReference : Option ConversationReference) :
    Except String TeamsBotInstallation :=
  match conversationReference with
  | none => Except.error "conversationReference is required."
  | some r => TeamsBotInstallation.make r

/-- The `for (const reference of references.data)` loop of
`NotificationBot.getPagedInstallations`: validated (or unvalidated) references
become installations; a reference failing validation is deleted from the store
by its derived key.  The probe oracle gives each reference's platform
outcome. -/
def getPagedLoop (probe : ConversationReference → ProbeResult) (validationEnabled : Bool) :
    List ConversationReference → StoreFile →
      Except String (List TeamsBotInstallation × StoreFile)
  | [], file => Except.ok ([], file)
  | r :: rest, file =>
    if !validationEnabled || validateInstallation (probe r) then
      match TeamsBotInstallation.make r with
      | Except.error e => Except.error e
      | Except.ok inst =>
        (getPagedLoop probe validationEnabled rest file).map
          (fun p => (inst :: p.1, p.2))
    else
      getPagedLoop probe validationEnabled rest
        (LocalConversationReferenceStore.delete file [getKey r])

/-- Translation of `NotificationBot.getPagedInstallations` from src/unnamed/part_002, over
the local store: list one page, filter/prune by validation, return the
surviving installations with the store page's continuation token. -/
def getPagedInstallations (probe : ConversationReference → ProbeResult)
    (validationEnabled : Bool) (file : StoreFile)
    (pageSize : Option Nat) (continuationToken : Option String) :
    Except String (List TeamsBotInstallation × String × StoreFile) :=
  let references := LocalConversationReferenceStore.list file pageSize continuationToken
  (getPagedLoop probe validationEnabled references.data file).map
    (fun p => (p.1, references.continuationToken, p.2))

namespace SearchScope

/-- Translation of `SearchScope.Person`. -/
def Person : Nat := 1

/-- Translation of `SearchScope.Group`. -/
def Group : Nat := 2

/-- Translation of `SearchScope.Channel`. -/
def Channel : Nat := 4

/-- Translation of `SearchScope.All = Person | Group | Channel`. -/
def All : Nat := Person ||| Group ||| Channel

end SearchScope

/-- Translation of `NotificationBot.matchSearchScope`: scope defaults to `All`; the target
type string selects which flag is tested. -/
def matchSearchScope (target : TeamsBotInstallation) (scope : Option Nat) : Bool :=
  let s := scope.getD SearchScope.All
  (decide (target.type = some "channel") && decide ((s &&& SearchScope.Channel) ≠ 0)) ||
  (decide (target.type = some "groupChat") && decide ((s &&& SearchScope.Group) ≠ 0)) ||
  (decide (target.type = some "personal") && decide ((s &&& SearchScope.Person) ≠ 0))

/-- A member account, opaque to the search logic. -/
structure Member where
  accountId : String
deriving DecidableEq, Repr

/-- The inner predicate loop of `NotificationBot.findMember` over the drained
member list of one installation: returns the pairs the predicate was
evaluated on and the first match, stopping at the first `true`. -/
def scanMembers (t : TeamsBotInstallation) (pred : Member → Bool) :
    List Member → List (TeamsBotInstallation × Member) × Option Member
  | [] => ([], none)
  | m :: ms =>
    if pred m then ([(t, m)], some m)
    else
      let r := scanMembers t pred ms
      ((t, m) :: r.1, r.2)

/-- The observable behaviour of one `findMember` run: which installations had
their member pages drained, which (installation, member) pairs the predicate
was evaluated on, and the result. -/
structure FindMemberRun where
  queried : List TeamsBotInstallation
  evals : List (TeamsBotInstallation × Member)
  result : Option Member
deriving DecidableEq, Repr

/-- Translation of `NotificationBot.findMember` from src/unnamed/part_002: iterate the
installations, skip those not matching the scope, drain members of matching
ones (given by the `membersOf` oracle) and look for the first predicate
match. -/
def findMemberRun (membersOf : TeamsBotInstallation → List Member)
    (pred : Member → Bool) (scope : Option Nat) :
    List TeamsBotInstallation → FindMemberRun
  | [] => { queried := [], evals := [], result := none }
  | t :: rest =>
    if matchSearchScope t scope then
      let s := scanMembers t pred (membersOf t)
      match s.2 with
      | some m => { queried := [t], evals := s.1, result := some m }
      | none =>
        let k := findMemberRun membersOf pred scope rest
        { queried := t :: k.queried, evals := s.1 ++ k.evals, result := k.result }
    else
      findMemberRun membersOf pred scope rest

/-- The event classifier exactly as the specification describes it
(spec §4.2): installation-update with action "add" or "add-upgrade" compared
case-insensitively is an install, any other action an uninstall;
conversation-update dispatches on the nested event type; message is a bot
message; everything else is unknown. -/
def specClassifyActivity (a : Activity) : ActivityType :=
  if a.type = "installationUpdate" then
    match a.action with
    | some act =>
      if act.toLower = "add" ∨ act.toLower = "add-upgrade" then
        ActivityType.CurrentBotInstalled
      else
        ActivityType.CurrentBotUninstalled
    | none => ActivityType.CurrentBotUninstalled
  else if a.type = "conversationUpdate" then
    match a.channelData.bind (·.eventType) with
    | some "teamDeleted" => ActivityType.TeamDeleted
    | some "teamRestored" => ActivityType.TeamRestored
    | _ => ActivityType.Unknown
  else if a.type = "message" then ActivityType.CurrentBotMessaged
  else ActivityType.Unknown

/-! ### Concrete inputs used by counterexamples and witnesses -/

/-- A conversation reference whose tenant id is absent. -/
def referenceNoTenant : ConversationReference :=
  { conversation :=
      some { id := some "C1", tenantId := none, conversationType := some "groupChat",
             name := none },
    serviceUrl := none }

/-- A conversation reference whose `conversation` field is absent. -/
def refNoConversation : ConversationReference :=
  { conversation := none, serviceUrl := some "https://smba.example" }

/-- A personal-scope reference for tenant "T1", conversation "C1". -/
def refPersonalT1C1 : ConversationReference :=
  { conversation :=
      some { id := some "C1", tenantId := some "T1",
             conversationType := some "personal", name := none },
    serviceUrl := some "https://a" }

/-- A channel-scope reference for the same tenant "T1" and conversation "C1",
differing from `refPersonalT1C1` in every other field. -/
def refChannelT1C1 : ConversationReference :=
  { conversation :=
      some { id := some "C1", tenantId := some "T1",
             conversationType := some "channel", name := some "General" },
    serviceUrl := none }

/-! ### Helper lemmas -/

theorem next_not_mem_tryAdd (a : Activity) :
    StoreOp.next ∉ tryAddMessagedReference a := by
  dsimp only [tryAddMessagedReference]
  repeat' split <;> simp

/-! ### Claim theorems -/

/-- Claim C2 (confirmed): the event classifier is exactly the total function
described by the specification — installation-update with action "add" or
"add-upgrade" (case-insensitive) is `CurrentBotInstalled`, any other action
`CurrentBotUninstalled`; conversation-update dispatches on the nested event
type to `TeamDeleted` / `TeamRestored` / `Unknown`; message is
`CurrentBotMessaged`; everything else `Unknown`.  Both sides are pure total
Lean functions, so the classifier has no side effects and never errors. -/
theorem classifyActivity_eq_spec :
    ∀ a : Activity, classifyActivity a = specClassifyActivity a := by
  intro a
  unfold classifyActivity specClassifyActivity
  by_cases h1 : a.type = "installationUpdate"
  · cases hact : a.action <;> simp [h1, hact]
  · by_cases h2 : a.type = "conversationUpdate"
    · cases hev : a.channelData.bind (·.eventType) with
      | none => simp [h1, h2, hev]
      | some ev =>
        by_cases hd : ev = "teamDeleted"
        · simp [h1, h2, hev, hd]
        · by_cases hr : ev = "teamRestored" <;> simp [h1, h2, hev, hd, hr]
    · by_cases h3 : a.type = "message" <;> simp [h1, h2, h3]

/-- Claim C5 (confirmed): `validateInstallation` returns false exactly when
the liveness probe fails with error code "BotNotInConversationRoster"; a
successful probe and every other error code yield true, and no probe error is
surfaced (the function is total and returns a `Bool`). -/
theorem validateInstallation_fail_open :
    (∀ code, code ≠ "BotNotInConversationRoster" →
      validateInstallation (ProbeResult.failure code) = true) ∧
    validateInstallation ProbeResult.success = true ∧
    (∀ p, validateInstallation p = false ↔
      p = ProbeResult.failure "BotNotInConversationRoster") := by
  refine ⟨?_, rfl, ?_⟩
  · intro code h
    simp [validateInstallation, h]
  · intro p
    cases p with
    | success => simp [validateInstallation]
    | failure code =>
      by_cases h : code = "BotNotInConversationRoster" <;>
        simp [validateInstallation, h]

/-- Witness for C5 at concrete inputs: a throttling error is not the roster
code and validation still reports true. -/
theorem validateInstallation_fail_open_witness :
    "Throttled" ≠ "BotNotInConversationRoster" ∧
    validateInstallation (ProbeResult.failure "Throttled") = true :=
  ⟨by decide, validateInstallation_fail_open.1 "Throttled" (by decide)⟩

/-- Claim C7 (confirmed): for every activity, `onTurn` is its store handling
followed by exactly one invocation of the next pipeline stage; no branch of
the classification short-circuits the pipeline. -/
theorem onTurn_invokes_next_once :
    ∀ a : Activity, ∃ ops, onTurn a = ops ++ [StoreOp.next] ∧ StoreOp.next ∉ ops := by
  intro a
  refine ⟨onTurnStoreOps a, rfl, ?_⟩
  unfold onTurnStoreOps
  cases classifyActivity a <;> simp [next_not_mem_tryAdd]

/-- Claim C10 (confirmed): the local store's `list` ignores both the page
size and the continuation token, returns every stored reference in one page,
and always returns the empty continuation token (also when the backing file
does not exist). -/
theorem local_list_returns_single_page :
    ∀ (file : StoreFile) (ps ps' : Option Nat) (tok tok' : Option String),
      LocalConversationReferenceStore.list file ps tok =
        LocalConversationReferenceStore.list file ps' tok' ∧
      (LocalConversationReferenceStore.list file ps tok).continuationToken = "" ∧
      (LocalConversationReferenceStore.list file ps tok).data =
        (fileEntries file).map (·.2) := by
  intro file ps ps' tok tok'
  cases file <;> simp [LocalConversationReferenceStore.list, fileEntries]

/-- Claim C9 (confirmed, implicit claim): `buildTeamsBotInstallation` rejects
only an absent reference; for a present reference with no `conversation`
field the `TeamsBotInstallation` constructor dereferences
`conversation.conversationType` without a guard and throws, so the non-null
precondition does not guarantee construction succeeds. -/
theorem buildTeamsBotInstallation_guard :
    buildTeamsBotInstallation none = Except.error "conversationReference is required." ∧
    (∀ r : ConversationReference, r.conversation = none →
      buildTeamsBotInstallation (some r) = Except.error "TypeError") ∧
    (∀ r : ConversationReference,
      buildTeamsBotInstallation (some r) ≠
        Except.error "conversationReference is required.") ∧
    (∀ (r : ConversationReference) (c : ConversationAccount), r.conversation = some c →
      buildTeamsBotInstallation (some r) =
        Except.ok { conversationReference := r, type := c.conversationType }) := by
  refine ⟨rfl, ?_, ?_, ?_⟩
  · intro r h
    simp [buildTeamsBotInstallation, TeamsBotInstallation.make, h]
  · intro r
    cases h : r.conversation <;>
      simp [buildTeamsBotInstallation, TeamsBotInstallation.make, h]
  · intro r c h
    simp [buildTeamsBotInstallation, TeamsBotInstallation.make, h]

/-- Witness for C9 at a concrete input: a non-null reference without a
`conversation` passes the null check yet construction fails. -/
theorem buildTeamsBotInstallation_guard_witness :
    refNoConversation.conversation = none ∧
    buildTeamsBotInstallation (some refNoConversation) = Except.error "TypeError" :=
  ⟨rfl, buildTeamsBotInstallation_guard.2.1 refNoConversation rfl⟩

/-- Counterexample to claim C6 as stated: a reference with an absent tenant
id derives the key "_undefined_C1" — the absent field renders as the string
"undefined", not as the empty string (which would give "__C1"). -/
theorem getKey_counterexample :
    getKey referenceNoTenant = "_undefined_C1" ∧ getKey referenceNoTenant ≠ "__C1" := by
  constructor <;> decide

/-- Claim C6 (corrected): the derived store key is deterministic and depends
only on the reference's tenant id and conversation id; an absent field
renders as the string "undefined" (not as the empty string). -/
theorem getKey_deterministic :
    (∀ r1 r2 : ConversationReference,
      r1.conversation.bind (·.tenantId) = r2.conversation.bind (·.tenantId) →
      r1.conversation.bind (·.id) = r2.conversation.bind (·.id) →
      getKey r1 = getKey r2) ∧
    (∀ r : ConversationReference, r.conversation.bind (·.tenantId) = none →
      r.conversation.bind (·.id) = none → getKey r = "_undefined_undefined") ∧
    (∀ (r : ConversationReference) (c : String), r.conversation.bind (·.tenantId) = none →
      r.conversation.bind (·.id) = some c → getKey r = "_undefined_" ++ c) ∧
    (∀ (r : ConversationReference) (t : String), r.conversation.bind (·.tenantId) = some t →
      r.conversation.bind (·.id) = none → getKey r = "_" ++ t ++ "_undefined") := by
  refine ⟨?_, ?_, ?_, ?_⟩
  · intro r1 r2 h1 h2
    unfold getKey
    rw [h1, h2]
  · intro r h1 h2
    simp [getKey, jsTemplate, h1, h2]
  · intro r c h1 h2
    simp [getKey, jsTemplate, h1, h2]
  · intro r t h1 h2
    simp [getKey, jsTemplate, h1, h2, String.append_assoc]

/-- Witness for C6 at concrete inputs: two references agreeing on tenant id
and conversation id (but differing elsewhere) derive equal keys. -/
theorem getKey_deterministic_witness :
    getKey refPersonalT1C1 = getKey refChannelT1C1 :=
  getKey_deterministic.1 refPersonalT1C1 refChannelT1C1 rfl rfl

/-- A channel-scoped message activity whose `channelData` carries neither a
team nor a channel object. -/
def msgChannelNoTeam : Activity :=
  { type := "message", action := none,
    channelData := some { eventType := none, team := none, channel := none },
    conversation := some { id := some "19:abc", tenantId := some "T1",
                           conversationType := some "channel", name := none },
    serviceUrl := some "https://smba.example" }

/-- A channel-scoped message activity in the General channel of team "TEAM1"
(team id present, channel id absent). -/
def msgChannelGeneral : Activity :=
  { type := "message", action := none,
    channelData := some { eventType := none, team := some { id := some "TEAM1" },
                          channel := none },
    conversation := some { id := some "19:xyz", tenantId := some "T1",
                           conversationType := some "channel", name := none },
    serviceUrl := none }

/-- Counterexample to claim C1 as stated: `msgChannelNoTeam` is a message
event whose conversation type is channel and whose channel id is absent, so
the claim requires exactly one store write; but its team id is also absent,
and `tryAddMessagedReference` is guarded by `teamId !== undefined`, so the
middleware performs zero store writes. -/
theorem channel_message_counterexample :
    (getConversationReference msgChannelNoTeam).conversation.bind (·.conversationType) =
      some "channel" ∧
    msgChannelNoTeam.type = "message" ∧
    (msgChannelNoTeam.channelData.bind (·.channel)).bind (·.id) = none ∧
    writeOps (onTurn msgChannelNoTeam) = [] := by
  refine ⟨rfl, rfl, rfl, ?_⟩
  decide

/-- Claim C1 (corrected): for every message event whose conversation type is
channel — when the team id is present and the channel id is absent or equal
to it, the middleware performs exactly one store write, of the clone of the
extracted reference whose conversation id is overwritten with the team id,
under that clone's derived key; when the team id is absent, or the channel id
is present and differs from the team id, it performs zero store writes. -/
theorem channel_message_writes (a : Activity)
    (hmsg : a.type = "message")
    (hch : (getConversationReference a).conversation.bind (·.conversationType) =
      some "channel") :
    (∀ tid, (a.channelData.bind (·.team)).bind (·.id) = some tid →
      ((a.channelData.bind (·.channel)).bind (·.id) = none ∨
        (a.channelData.bind (·.channel)).bind (·.id) = some tid) →
      writeOps (onTurn a) =
        [StoreOp.write (getKey (setConversationId (getConversationReference a) tid))
          (setConversationId (getConversationReference a) tid)] ∧
      (setConversationId (getConversationReference a) tid).conversation.bind (·.id) =
        some tid) ∧
    ((a.channelData.bind (·.team)).bind (·.id) = none → writeOps (onTurn a) = []) ∧
    (∀ tid cid, (a.channelData.bind (·.team)).bind (·.id) = some tid →
      (a.channelData.bind (·.channel)).bind (·.id) = some cid → cid ≠ tid →
      writeOps (onTurn a) = []) := by
  have hclass : classifyActivity a = ActivityType.CurrentBotMessaged := by
    simp [classifyActivity, hmsg]
  have hops : writeOps (onTurn a) = writeOps (tryAddMessagedReference a) := by
    simp [onTurn, onTurnStoreOps, hclass, writeOps, List.filter_append]
  have hnotpg :
      ¬((getConversationReference a).conversation.bind (·.conversationType) =
          some "personal" ∨
        (getConversationReference a).conversation.bind (·.conversationType) =
          some "groupChat") := by
    rw [hch]; simp
  refine ⟨?_, ?_, ?_⟩
  · intro tid hteam hchan
    constructor
    · rw [hops]
      dsimp only [tryAddMessagedReference]
      rw [if_neg hnotpg, if_pos hch, hteam]
      have hcond : (a.channelData.bind (·.channel)).bind (·.id) = none ∨
          (a.channelData.bind (·.channel)).bind (·.id) = some tid := hchan
      dsimp only
      rw [if_pos hcond]
      simp [writeOps]
    · obtain ⟨c, hc⟩ : ∃ c, (getConversationReference a).conversation = some c := by
        cases hcv : (getConversationReference a).conversation with
        | none => rw [hcv] at hch; simp at hch
        | some c => exact ⟨c, rfl⟩
      simp [setConversationId, hc]
  · intro hteam
    rw [hops]
    dsimp only [tryAddMessagedReference]
    rw [if_neg hnotpg, if_pos hch, hteam]
    simp [writeOps]
  · intro tid cid hteam hchan hne
    rw [hops]
    dsimp only [tryAddMessagedReference]
    rw [if_neg hnotpg, if_pos hch, hteam]
    have hcond : ¬((a.channelData.bind (·.channel)).bind (·.id) = none ∨
        (a.channelData.bind (·.channel)).bind (·.id) = some tid) := by
      rw [hchan]; simp; exact hne
    dsimp only
    rw [if_neg hcond]
    simp [writeOps]

/-- Witness for C1 at a concrete input: a General-channel message (team id
"TEAM1", channel id absent) produces exactly the one derived write. -/
theorem channel_message_writes_witness :
    writeOps (onTurn msgChannelGeneral) =
      [StoreOp.write
        (getKey (setConversationId (getConversationReference msgChannelGeneral) "TEAM1"))
        (setConversationId (getConversationReference msgChannelGeneral) "TEAM1")] :=
  ((channel_message_writes msgChannelGeneral rfl rfl).1 "TEAM1" rfl (Or.inl rfl)).1

/-! ### Association-list lemmas for the local store -/

theorem assocGet_assocSet_self (data : StoreData) (k : String) (v : ConversationReference) :
    assocGet (assocSet data k v) k = some v := by
  unfold assocSet
  split
  case isTrue h =>
    induction data with
    | nil => simp at h
    | cons e tl ih =>
      by_cases he : (e.1 == k) = true
      · simp only [List.map_cons, he, if_pos]
        simp [assocGet, List.find?]
      · simp only [List.any_cons, he, Bool.false_or] at h
        simp only [List.map_cons, he, if_neg, Bool.not_eq_true]
        simp only [assocGet, List.find?, he]
        exact ih h
  case isFalse h =>
    induction data with
    | nil => simp [assocGet, List.find?]
    | cons e tl ih =>
      simp only [List.any_cons, Bool.or_eq_true, not_or] at h
      have he : (e.1 == k) = false := by
        cases hb : (e.1 == k) with
        | false => rfl
        | true => exact absurd hb h.1
      simp only [List.cons_append, assocGet, List.find?, he]
      exact ih h.2

theorem assocGet_eq_none_of_not_mem (data : StoreData) (k : String)
    (h : ∀ e ∈ data, e.1 ≠ k) : assocGet data k = none := by
  induction data with
  | nil => rfl
  | cons e tl ih =>
    have he : (e.1 == k) = false := by
      cases hb : (e.1 == k) with
      | false => rfl
      | true => exact absurd (eq_of_beq hb) (h e (List.mem_cons_self e tl))
    simp only [assocGet, List.find?, he]
    exact ih (fun e' he' => h e' (List.mem_cons_of_mem e he'))

theorem assocGet_filter_out (data : StoreData) (keys : List String) (k : String)
    (hk : k ∈ keys) :
    assocGet (data.filter (fun e => !(keys.contains e.1))) k = none := by
  apply assocGet_eq_none_of_not_mem
  intro e he hek
  have hp := (List.mem_filter.mp he).2
  rw [hek] at hp
  simp at hp
  exact hp hk

theorem filter_keys_no_op (data : StoreData) (k : String)
    (h : ∀ e ∈ data, e.1 ≠ k) :
    data.filter (fun e => !([k].contains e.1)) = data := by
  apply List.filter_eq_self.mpr
  intro e he
  simp [List.contains_eq_any_beq]
  exact fun hek => absurd hek (h e he)

/-- Claim C4 (confirmed): writing a reference then reading its derived key
returns exactly that reference; deleting it afterwards makes the read return
no entry; a read of a missing key returns no entry (and never errors); a
delete of an absent key leaves the store unchanged. -/
theorem store_write_read_delete_roundtrip (file : StoreFile) (r : ConversationReference) :
    LocalConversationReferenceStore.read
        (LocalConversationReferenceStore.write file [(getKey r, r)]) [getKey r] =
      [(getKey r, r)] ∧
    LocalConversationReferenceStore.read
        (LocalConversationReferenceStore.delete
          (LocalConversationReferenceStore.write file [(getKey r, r)]) [getKey r])
        [getKey r] = [] ∧
    (∀ k, (∀ e ∈ fileEntries file, e.1 ≠ k) →
      LocalConversationReferenceStore.read file [k] = []) ∧
    (∀ k, (∀ e ∈ fileEntries file, e.1 ≠ k) →
      LocalConversationReferenceStore.delete file [k] = file) := by
  refine ⟨?_, ?_, ?_, ?_⟩
  · cases file with
    | none =>
      simp [LocalConversationReferenceStore.write, LocalConversationReferenceStore.read,
        assocGet, List.find?]
    | some data =>
      simp [LocalConversationReferenceStore.write, LocalConversationReferenceStore.read,
        assocGet_assocSet_self]
  · cases file with
    | none =>
      simp [LocalConversationReferenceStore.write, LocalConversationReferenceStore.delete,
        LocalConversationReferenceStore.read, assocGet, List.find?,
        assocGet_filter_out [(getKey r, r)] [getKey r] (getKey r)
          (List.mem_singleton.mpr rfl)]
    | some data =>
      have hnone :
          assocGet ((assocSet data (getKey r) r).filter
            (fun e => !([getKey r].contains e.1))) (getKey r) = none :=
        assocGet_filter_out (assocSet data (getKey r) r) [getKey r] (getKey r)
          (List.mem_singleton.mpr rfl)
      simp at hnone
      simp [LocalConversationReferenceStore.write, LocalConversationReferenceStore.delete,
        LocalConversationReferenceStore.read, hnone]
  · intro k h
    cases file with
    | none => rfl
    | some data =>
      simp only [fileEntries, Option.getD] at h
      simp [LocalConversationReferenceStore.read, assocGet_eq_none_of_not_mem data k h]
  · intro k h
    cases file with
    | none => rfl
    | some data =>
      simp only [fileEntries, Option.getD] at h
      simp only [LocalConversationReferenceStore.delete, Option.some.injEq]
      exact filter_keys_no_op data k h

/-- A sample store file for the C4 witness. -/
def storeFileSample : StoreFile := some [(getKey refChannelT1C1, refChannelT1C1)]

/-- Witness for C4 at concrete inputs: the round-trip holds on a populated
store, and deleting a key that is absent from it is a no-op. -/
theorem store_write_read_delete_roundtrip_witness :
    LocalConversationReferenceStore.read
        (LocalConversationReferenceStore.write storeFileSample
          [(getKey refPersonalT1C1, refPersonalT1C1)]) [getKey refPersonalT1C1] =
      [(getKey refPersonalT1C1, refPersonalT1C1)] ∧
    (∀ e ∈ fileEntries storeFileSample, e.1 ≠ "absent-key") ∧
    LocalConversationReferenceStore.delete storeFileSample ["absent-key"] = storeFileSample :=
  ⟨(store_write_read_delete_roundtrip storeFileSample refPersonalT1C1).1,
   by decide,
   (store_write_read_delete_roundtrip storeFileSample refPersonalT1C1).2.2.2
     "absent-key" (by decide)⟩

/-! ### Lemmas about the paged-installation loop -/

theorem make_conversationReference (r : ConversationReference) (i : TeamsBotInstallation)
    (h : TeamsBotInstallation.make r = Except.ok i) : i.conversationReference = r := by
  cases hc : r.conversation <;>
    simp [TeamsBotInstallation.make, hc] at h
  rw [← h]

theorem delete_entries_subset (file : StoreFile) (keys : List String)
    (e : String × ConversationReference)
    (h : e ∈ fileEntries (LocalConversationReferenceStore.delete file keys)) :
    e ∈ fileEntries file := by
  cases file with
  | none => exact h
  | some data =>
    exact (List.mem_filter.mp h).1

theorem delete_key_not_mem (file : StoreFile) (k : String)
    (e : String × ConversationReference)
    (h : e ∈ fileEntries (LocalConversationReferenceStore.delete file [k])) :
    e.1 ≠ k := by
  cases file with
  | none => cases h
  | some data =>
    have hp := (List.mem_filter.mp h).2
    simp at hp
    exact hp

theorem getPagedLoop_file_subset (probe : ConversationReference → ProbeResult) (b : Bool) :
    ∀ (refs : List ConversationReference) (file : StoreFile)
      (ts : List TeamsBotInstallation) (f' : StoreFile),
      getPagedLoop probe b refs file = Except.ok (ts, f') →
      ∀ e ∈ fileEntries f', e ∈ fileEntries file := by
  intro refs
  induction refs with
  | nil =>
    intro file ts f' h e he
    simp only [getPagedLoop, Except.ok.injEq, Prod.mk.injEq] at h
    rw [← h.2] at he
    exact he
  | cons r rest ih =>
    intro file ts f' h e he
    simp only [getPagedLoop] at h
    split at h
    · cases hm : TeamsBotInstallation.make r with
      | error err => rw [hm] at h; simp [Except.map] at h
      | ok inst =>
        rw [hm] at h
        cases hrec : getPagedLoop probe b rest file with
        | error err => rw [hrec] at h; simp [Except.map] at h
        | ok p =>
          rw [hrec] at h
          simp only [Except.map, Except.ok.injEq, Prod.mk.injEq] at h
          rw [← h.2] at he
          exact ih file p.1 p.2 hrec e he
    · have hsub := ih (LocalConversationReferenceStore.delete file [getKey r]) ts f' h e he
      exact delete_entries_subset file [getKey r] e hsub

theorem getPagedLoop_targets_valid (probe : ConversationReference → ProbeResult) :
    ∀ (refs : List ConversationReference) (file : StoreFile)
      (ts : List TeamsBotInstallation) (f' : StoreFile),
      getPagedLoop probe true refs file = Except.ok (ts, f') →
      ∀ i ∈ ts, validateInstallation (probe i.conversationReference) = true := by
  intro refs
  induction refs with
  | nil =>
    intro file ts f' h i hi
    simp only [getPagedLoop, Except.ok.injEq, Prod.mk.injEq] at h
    rw [← h.1] at hi
    cases hi
  | cons r rest ih =>
    intro file ts f' h i hi
    simp only [getPagedLoop, Bool.not_true, Bool.false_or] at h
    split at h
    case isTrue hv =>
      cases hm : TeamsBotInstallation.make r with
      | error err => rw [hm] at h; simp [Except.map] at h
      | ok inst =>
        rw [hm] at h
        cases hrec : getPagedLoop probe true rest file with
        | error err => rw [hrec] at h; simp [Except.map] at h
        | ok p =>
          rw [hrec] at h
          simp only [Except.map, Except.ok.injEq, Prod.mk.injEq] at h
          rw [← h.1] at hi
          rcases List.mem_cons.mp hi with hi | hi
          · rw [hi, make_conversationReference r inst hm]
            exact hv
          · exact ih file p.1 p.2 hrec i hi
    case isFalse hv =>
      exact ih _ ts f' h i hi

theorem getPagedLoop_failing_removed (probe : ConversationReference → ProbeResult) :
    ∀ (refs : List ConversationReference) (file : StoreFile)
      (ts : List TeamsBotInstallation) (f' : StoreFile),
      getPagedLoop probe true refs file = Except.ok (ts, f') →
      ∀ r ∈ refs, validateInstallation (probe r) = false →
        ∀ e ∈ fileEntries f', e.1 ≠ getKey r := by
  intro refs
  induction refs with
  | nil =>
    intro file ts f' h r hr
    cases hr
  | cons r' rest ih =>
    intro file ts f' h r hr hv e he
    simp only [getPagedLoop, Bool.not_true, Bool.false_or] at h
    split at h
    case isTrue hvr =>
      cases hm : TeamsBotInstallation.make r' with
      | error err => rw [hm] at h; simp [Except.map] at h
      | ok inst =>
        rw [hm] at h
        cases hrec : getPagedLoop probe true rest file with
        | error err => rw [hrec] at h; simp [Except.map] at h
        | ok p =>
          rw [hrec] at h
          simp only [Except.map, Except.ok.injEq, Prod.mk.injEq] at h
          rcases List.mem_cons.mp hr with hreq | hr
          · rw [hreq] at hv
            rw [hv] at hvr
            cases hvr
          · rw [← h.2] at he
            exact ih file p.1 p.2 hrec r hr hv e he
    case isFalse hvr =>
      rcases List.mem_cons.mp hr with hreq | hr
      · have hsub := getPagedLoop_file_subset probe true rest
          (LocalConversationReferenceStore.delete file [getKey r']) ts f' h e he
        rw [hreq]
        exact delete_key_not_mem file (getKey r') e hsub
      · exact ih _ ts f' h r hr hv e he

theorem getPagedLoop_disabled (probe : ConversationReference → ProbeResult) :
    ∀ (refs : List ConversationReference) (file : StoreFile)
      (ts : List TeamsBotInstallation) (f' : StoreFile),
      getPagedLoop probe false refs file = Except.ok (ts, f') →
      ts.map TeamsBotInstallation.conversationReference = refs ∧ f' = file := by
  intro refs
  induction refs with
  | nil =>
    intro file ts f' h
    simp only [getPagedLoop, Except.ok.injEq, Prod.mk.injEq] at h
    rw [← h.1, ← h.2]
    exact ⟨rfl, rfl⟩
  | cons r rest ih =>
    intro file ts f' h
    simp only [getPagedLoop, Bool.not_false, Bool.true_or, if_true] at h
    cases hm : TeamsBotInstallation.make r with
    | error err => rw [hm] at h; simp [Except.map] at h
    | ok inst =>
      rw [hm] at h
      cases hrec : getPagedLoop probe false rest file with
      | error err => rw [hrec] at h; simp [Except.map] at h
      | ok p =>
        rw [hrec] at h
        simp only [Except.map, Except.ok.injEq, Prod.mk.injEq] at h
        obtain ⟨hmap, hfile⟩ := ih file p.1 p.2 hrec
        rw [← h.1, ← h.2]
        refine ⟨?_, hfile⟩
        simp only [List.map_cons, hmap, make_conversationReference r inst hm]

/-- Decidable equality of `Except` results, used to evaluate the model on
concrete witness inputs. -/
instance {ε α : Type} [DecidableEq ε] [DecidableEq α] : DecidableEq (Except ε α) := fun a b =>
  match a, b with
  | Except.error e1, Except.error e2 =>
    if h : e1 = e2 then isTrue (by rw [h])
    else isFalse (by intro hc; injection hc with h2; exact h h2)
  | Except.error _, Except.ok _ => isFalse (by intro hc; cases hc)
  | Except.ok _, Except.error _ => isFalse (by intro hc; cases hc)
  | Except.ok v1, Except.ok v2 =>
    if h : v1 = v2 then isTrue (by rw [h])
    else isFalse (by intro hc; injection hc with h2; exact h h2)

theorem list_data_eq (file : StoreFile) (ps : Option Nat) (tok : Option String) :
    (LocalConversationReferenceStore.list file ps tok).data =
      (fileEntries file).map (·.2) := by
  cases file <;> simp [LocalConversationReferenceStore.list, fileEntries]

theorem getPagedInstallations_loop (probe : ConversationReference → ProbeResult)
    (b : Bool) (file : StoreFile) (ps : Option Nat) (tok : Option String)
    (ts : List TeamsBotInstallation) (ct : String) (f' : StoreFile)
    (h : getPagedInstallations probe b file ps tok = Except.ok (ts, ct, f')) :
    getPagedLoop probe b (LocalConversationReferenceStore.list file ps tok).data file =
      Except.ok (ts, f') := by
  unfold getPagedInstallations at h
  dsimp only at h
  cases hrec : getPagedLoop probe b
      (LocalConversationReferenceStore.list file ps tok).data file with
  | error err => rw [hrec] at h; simp [Except.map] at h
  | ok p =>
    rw [hrec] at h
    simp only [Except.map, Except.ok.injEq, Prod.mk.injEq] at h
    rw [← h.1, ← h.2.2]

/-- Claim C3 (confirmed): for every store state whose entries are keyed by
their derived key, every page returned by `getPagedInstallations` with
validation enabled contains only installations whose reference passed
`validateInstallation`, and every reference for which `validateInstallation`
returned false is absent from the store afterwards; with validation disabled
every listed reference is wrapped unconditionally and the store is
untouched. -/
theorem getPagedInstallations_validation
    (probe : ConversationReference → ProbeResult) (file : StoreFile)
    (ps : Option Nat) (tok : Option String)
    (hwk : ∀ e ∈ fileEntries file, e.1 = getKey e.2) :
    (∀ ts ct f', getPagedInstallations probe true file ps tok = Except.ok (ts, ct, f') →
      (∀ i ∈ ts, validateInstallation (probe i.conversationReference) = true) ∧
      (∀ r ∈ (LocalConversationReferenceStore.list file ps tok).data,
        validateInstallation (probe r) = false →
          r ∉ (LocalConversationReferenceStore.list f' ps tok).data)) ∧
    (∀ ts ct f', getPagedInstallations probe false file ps tok = Except.ok (ts, ct, f') →
      ts.map TeamsBotInstallation.conversationReference =
        (LocalConversationReferenceStore.list file ps tok).data ∧ f' = file) := by
  constructor
  · intro ts ct f' h
    have hloop := getPagedInstallations_loop probe true file ps tok ts ct f' h
    constructor
    · exact getPagedLoop_targets_valid probe _ file ts f' hloop
    · intro r hr hv hmem
      rw [list_data_eq] at hmem
      obtain ⟨e, he, hevr⟩ := List.mem_map.mp hmem
      have hkey := getPagedLoop_failing_removed probe _ file ts f' hloop r hr hv e he
      have hsub := getPagedLoop_file_subset probe true _ file ts f' hloop e he
      have hwk' := hwk e hsub
      rw [hevr] at hwk'
      exact hkey hwk'
  · intro ts ct f' h
    have hloop := getPagedInstallations_loop probe false file ps tok ts ct f' h
    exact getPagedLoop_disabled probe _ file ts f' hloop

/-- A stale group-chat reference (its installation fails validation). -/
def refStale : ConversationReference :=
  { conversation :=
      some { id := some "C9", tenantId := some "T1",
             conversationType := some "groupChat", name := none },
    serviceUrl := none }

/-- A probe oracle under which exactly `refStale` is reported out of the
conversation roster. -/
def probeSample : ConversationReference → ProbeResult :=
  fun r =>
    if r = refStale then ProbeResult.failure "BotNotInConversationRoster"
    else ProbeResult.success

/-- A store holding one live and one stale reference, keyed correctly. -/
def storeFileTwo : StoreFile :=
  some [(getKey refPersonalT1C1, refPersonalT1C1), (getKey refStale, refStale)]

/-- Witness for C3 at concrete inputs: pruning deletes the stale reference
from the store page produced afterwards. -/
theorem getPagedInstallations_validation_witness :
    refStale ∉
      (LocalConversationReferenceStore.list
        (some [(getKey refPersonalT1C1, refPersonalT1C1)]) none none).data :=
  ((getPagedInstallations_validation probeSample storeFileTwo none none (by decide)).1
    [{ conversationReference := refPersonalT1C1, type := some "personal" }] ""
    (some [(getKey refPersonalT1C1, refPersonalT1C1)]) (by decide)).2
    refStale (by decide) (by decide)

/-! ### Search-scope lemmas -/

theorem matchSearchScope_person (t : TeamsBotInstallation) :
    matchSearchScope t (some SearchScope.Person) = true ↔ t.type = some "personal" := by
  unfold matchSearchScope SearchScope.Person SearchScope.Group SearchScope.Channel
  constructor
  · intro h
    simp only [Option.getD_some] at h
    rcases Bool.or_eq_true_iff.mp h with h | h
    · rcases Bool.or_eq_true_iff.mp h with h | h
      · have := (Bool.and_eq_true_iff.mp h).2
        simp at this
      · have := (Bool.and_eq_true_iff.mp h).2
        simp at this
    · exact of_decide_eq_true (Bool.and_eq_true_iff.mp h).1
  · intro h
    simp [h]

theorem scanMembers_fst (t : TeamsBotInstallation) (pred : Member → Bool) :
    ∀ (ms : List Member) (p : TeamsBotInstallation × Member),
      p ∈ (scanMembers t pred ms).1 → p.1 = t := by
  intro ms
  induction ms with
  | nil =>
    intro p hp
    cases hp
  | cons m tl ih =>
    intro p hp
    by_cases hm : pred m
    · simp only [scanMembers, hm, if_pos] at hp
      rcases List.mem_singleton.mp hp with rfl
      rfl
    · simp only [scanMembers, hm, Bool.false_eq_true, if_neg, not_false_eq_true] at hp
      rcases List.mem_cons.mp hp with rfl | hp
      · rfl
      · exact ih p hp

/-- Claim C8 (confirmed): a `findMember` run with scope `Person` drains
member pages only of installations whose type is `personal`, and evaluates
its predicate only on members of such installations; `channel` and
`groupChat` installations are never queried. -/
theorem findMember_person_scope (membersOf : TeamsBotInstallation → List Member)
    (pred : Member → Bool) :
    ∀ installs : List TeamsBotInstallation,
      (∀ t ∈ (findMemberRun membersOf pred (some SearchScope.Person) installs).queried,
        t.type = some "personal") ∧
      (∀ p ∈ (findMemberRun membersOf pred (some SearchScope.Person) installs).evals,
        p.1.type = some "personal") := by
  intro installs
  induction installs with
  | nil =>
    constructor <;> intro x hx <;> cases hx
  | cons t rest ih =>
    by_cases hm : matchSearchScope t (some SearchScope.Person) = true
    · have ht := (matchSearchScope_person t).mp hm
      cases hs : (scanMembers t pred (membersOf t)).2 with
      | some m =>
        constructor
        · intro t' ht'
          simp only [findMemberRun, hm, if_pos, hs] at ht'
          rcases List.mem_singleton.mp ht' with rfl
          exact ht
        · intro p hp
          simp only [findMemberRun, hm, if_pos, hs] at hp
          rw [scanMembers_fst t pred (membersOf t) p hp]
          exact ht
      | none =>
        constructor
        · intro t' ht'
          simp only [findMemberRun, hm, if_pos, hs] at ht'
          rcases List.mem_cons.mp ht' with rfl | ht'
          · exact ht
          · exact ih.1 t' ht'
        · intro p hp
          simp only [findMemberRun, hm, if_pos, hs] at hp
          rcases List.mem_append.mp hp with hp | hp
          · rw [scanMembers_fst t pred (membersOf t) p hp]
            exact ht
          · exact ih.2 p hp
    · constructor
      · intro t' ht'
        simp only [findMemberRun, hm, if_neg, Bool.not_eq_true] at ht'
        exact ih.1 t' ht'
      · intro p hp
        simp only [findMemberRun, hm, if_neg, Bool.not_eq_true] at hp
        exact ih.2 p hp

/-- A personal-scope installation used by the C8 witness. -/
def instPersonal : TeamsBotInstallation :=
  { conversationReference := refPersonalT1C1, type := some "personal" }

/-- A channel-scope installation used by the C8 witness. -/
def instChannel : TeamsBotInstallation :=
  { conversationReference := refChannelT1C1, type := some "channel" }

/-- A member oracle for the C8 witness. -/
def membersOfSample : TeamsBotInstallation → List Member :=
  fun t =>
    if t.type = some "personal" then [{ accountId := "alice" }, { accountId := "bob" }]
    else [{ accountId := "carol" }]

/-- A member predicate for the C8 witness. -/
def predSample : Member → Bool :=
  fun m => m.accountId == "bob"

/-- Witness for C8 at concrete inputs: in a run over a channel installation
and a personal installation with scope `Person`, the predicate is evaluated
on a member of the personal installation, whose type the theorem then
reports as `personal`. -/
theorem findMember_person_scope_witness :
    (instPersonal, Member.mk "alice") ∈
      (findMemberRun membersOfSample predSample (some SearchScope.Person)
        [instChannel, instPersonal]).evals ∧
    instPersonal.type = some "personal" :=
  ⟨by decide,
   (findMember_person_scope membersOfSample predSample [instChannel, instPersonal]).2
     (instPersonal, Member.mk "alice") (by decide)⟩
